import Mathlib

/-!
Shallow embedding of the pipeless input-pipeline coordinator:
`src/core/src/pipeless_ai/lib/config.py` (configuration resolver) and
`src/core/src/pipeless_ai/lib/input/input.py` (bus-message handler, frame
capture callback, caps-negotiation probe, dynamic pad linking).

Python values that appear in configuration documents are modelled by the
`Value` sum type; Python exceptions and `sys.exit(1)` are modelled by the
`PyErr` error type of an `Except` result.  Channel sends are modelled as a
trace of `SendEvent`s recording the target channel, the send method that was
invoked (`send` vs `ensure_send`) and the message variant (serialization is
a collaborator and is left abstract: one trace element per `.send`/
`.ensure_send` call, carrying the pre-serialization variant).
-/

namespace Pipeless

/-- A Python value as it can occur in a configuration document or as a
resolved configuration field. -/
inductive Value
  | vStr (s : String)
  | vInt (n : Int)
  | vBool (b : Bool)
deriving DecidableEq, Repr

/-- Python error outcomes: `keyError`/`typeError`/`valueError`/
`attributeError` model raised exceptions, `exit` models `sys.exit(1)`. -/
inductive PyErr
  | keyError
  | typeError
  | valueError
  | attributeError
  | exit
deriving DecidableEq, Repr

/-- `d[k]` on an optional dict `d`: `None[k]` raises `TypeError`; a missing
key raises `KeyError`. `field` is the lookup of the key in the dict. -/
def pyIndex {α β : Type} (d : Option α) (field : α → Option β) : Except PyErr β :=
  match d with
  | none => .error .typeError
  | some a =>
    match field a with
    | some b => .ok b
    | none => .error .keyError

/-- `prioritized_config(config, path, env_var_name, convert_to, required)`
from `config.py` lines 9-21.  `env` is `os.environ.get(env_var_name, None)`;
`cfgLookup` is the (pure) outcome of evaluating `config[path]`;
`convert_to` may itself raise (e.g. `int` on a non-numeric string).
If the env var is set, the config document is never consulted; otherwise the
document value is taken as-is; a `KeyError` with `required=True` is
`sys.exit(1)`, with `required=False` the value stays `None`; any other
exception from the lookup propagates uncaught. -/
def prioritized_config (env : Option String) (cfgLookup : Except PyErr Value)
    (convert_to : String → Except PyErr Value) (required : Bool) :
    Except PyErr (Option Value) :=
  match env with
  | none =>
    match cfgLookup with
    | .ok v => .ok (some v)
    | .error .keyError => if required then .error .exit else .ok none
    | .error e => .error e
  | some s => (convert_to s).map some

/-- The default `convert_to=str` (identity on strings). -/
def convStr (s : String) : Except PyErr Value := .ok (.vStr s)

/-- `convert_to=bool`: Python `bool` on a string is `False` exactly on the
empty string. -/
def convBool (s : String) : Except PyErr Value := .ok (.vBool (s ≠ ""))

/-- The numeric value of a digit string. -/
def digitsVal (ds : List Char) : Nat :=
  ds.foldl (fun a c => a * 10 + (c.toNat - 48)) 0

/-- `convert_to=int`: Python's `int` on a string — an optional sign followed
by at least one decimal digit parses to the integer, anything else raises
`ValueError` (whitespace tolerance and underscore separators are not
modelled). -/
def convInt (s : String) : Except PyErr Value :=
  let stripped : Int × List Char :=
    match s.data with
    | '-' :: rest => (-1, rest)
    | '+' :: rest => (1, rest)
    | cs => (1, cs)
  if stripped.2 ≠ [] ∧ stripped.2.all Char.isDigit then
    .ok (.vInt (stripped.1 * digitsVal stripped.2))
  else .error .valueError

/-- Python's `str.split(sep)` for a single-character separator, on the
character list of the string: splits at every occurrence of `sep`.
`"".split(sep) = ['']`, `"a:b".split(':') = ['a','b']`, etc. -/
def pySplit (sep : Char) : List Char → List (List Char)
  | [] => [[]]
  | c :: rest =>
    if c = sep then [] :: pySplit sep rest
    else
      match pySplit sep rest with
      | [] => [[c]]
      | h :: t => (c :: h) :: t

/-- The URI-parsing part of `Video.__init__` (`config.py` lines 40-51).
`uri` is the resolved (optional) `uri` field.  `uri == 'screen'` short-cuts
to `("screen","screen")`; otherwise `uri.split(':')` is taken and indexed at
`[0]` and `[1]`.  `None.split` / `.split` on a non-string raises
`AttributeError` and a missing index raises `IndexError`; both are caught by
the bare `except` and turned into `sys.exit(1)`. -/
def Video_parseUri (uri : Option Value) : Except PyErr (String × String) :=
  if uri = some (.vStr "screen") then .ok ("screen", "screen")
  else
    match uri with
    | some (.vStr u) =>
      match pySplit ':' u.data with
      | p :: l :: _ => .ok (String.mk p, String.mk l)
      | _ => .error .exit
    | _ => .error .exit

end Pipeless

namespace Pipeless

/-- The `video` sub-dictionary of the config document. -/
structure VideoDict where
  enable : Option Value
  uri : Option Value
deriving DecidableEq, Repr

/-- The `address` sub-dictionary of the config document. -/
structure AddressDict where
  host : Option Value
  port : Option Value
deriving DecidableEq, Repr

/-- The `input` / `output` section of the config document. -/
structure SectionDict where
  video : Option VideoDict
  address : Option AddressDict
deriving DecidableEq, Repr

/-- The top-level config document handed to `Config`. -/
structure ConfigDict where
  log_level : Option Value
  n_workers : Option Value
  input : Option SectionDict
  output : Option SectionDict
deriving DecidableEq, Repr

/-- Resolved fields of a `Video` object (`config.py` lines 34-60). -/
structure VideoV where
  enable : Option Value
  uri : Option Value
  protocol : String
  location : String
deriving DecidableEq, Repr

/-- Resolved fields of an `Address` object (`config.py` lines 23-32). -/
structure AddressV where
  host : Option Value
  port : Option Value
deriving DecidableEq, Repr

/-- Resolved fields of an `Input` / `Output` object. -/
structure IOV where
  video : VideoV
  address : AddressV
deriving DecidableEq, Repr

/-- `Video.__init__` (`config.py` lines 35-51): resolves `enable`
(required, `convert_to=bool`) and `uri` (optional), then parses the URI. -/
def Video_init (env : String → Option String) (vd : VideoDict)
    (envPfx : String) : Except PyErr VideoV := do
  let en ← prioritized_config (env (envPfx ++ "_ENABLE"))
      (pyIndex (some vd) (·.enable)) convBool true
  let uri ← prioritized_config (env (envPfx ++ "_URI"))
      (pyIndex (some vd) (·.uri)) convStr false
  let pl ← Video_parseUri uri
  return ⟨en, uri, pl.1, pl.2⟩

/-- `Address.__init__` (`config.py` lines 24-26): `host` and `port`, both
required, default string conversion. -/
def Address_init (env : String → Option String) (ad : AddressDict)
    (envPfx : String) : Except PyErr AddressV := do
  let h ← prioritized_config (env (envPfx ++ "_HOST"))
      (pyIndex (some ad) (·.host)) convStr true
  let p ← prioritized_config (env (envPfx ++ "_PORT"))
      (pyIndex (some ad) (·.port)) convStr true
  return ⟨h, p⟩

/-- `Input.__init__` (`config.py` lines 62-66). -/
def Input_init (env : String → Option String) (sd : SectionDict) :
    Except PyErr IOV := do
  let vd ← pyIndex (some sd) (·.video)
  let v ← Video_init env vd "PIPELESS_INPUT_VIDEO"
  let ad ← pyIndex (some sd) (·.address)
  let a ← Address_init env ad "PIPELESS_INPUT_ADDRESS"
  return ⟨v, a⟩

/-- `Output.__init__` (`config.py` lines 73-81). -/
def Output_init (env : String → Option String) (sd : SectionDict) :
    Except PyErr IOV := do
  let vd ← pyIndex (some sd) (·.video)
  let v ← Video_init env vd "PIPELESS_OUTPUT_VIDEO"
  let ad ← pyIndex (some sd) (·.address)
  let a ← Address_init env ad "PIPELESS_OUTPUT_ADDRESS"
  return ⟨v, a⟩

/-- Resolved fields of the `Config` object. -/
structure ConfigValues where
  log_level : Option Value
  input : IOV
  output : IOV
  n_workers : Option Value
deriving DecidableEq, Repr

/-- The log-level validation in `Config.__init__` (`config.py` lines
97-99): anything other than `INFO`/`DEBUG`/`WARN` falls back to `DEBUG`
with a warning. -/
def validate_log_level (v : Option Value) : Option Value :=
  if v = some (.vStr "INFO") ∨ v = some (.vStr "DEBUG") ∨ v = some (.vStr "WARN")
  then v else some (.vStr "DEBUG")

/-- `Config.__init__` (`config.py` lines 89-103): resolves `log_level`
(required), validates it, builds `Input` and `Output` from
`config['input']` / `config['output']`, and resolves `n_workers`
(required, `convert_to=int`). -/
def Config_init (env : String → Option String) (config : Option ConfigDict) :
    Except PyErr ConfigValues := do
  let ll ← prioritized_config (env "PIPELESS_LOG_LEVEL")
      (pyIndex config (·.log_level)) convStr true
  let ll := validate_log_level ll
  let ind ← pyIndex config (·.input)
  let inp ← Input_init env ind
  let outd ← pyIndex config (·.output)
  let out ← Output_init env outd
  let nw ← prioritized_config (env "PIPELESS_N_WORKERS")
      (pyIndex config (·.n_workers)) convInt true
  return ⟨ll, inp, out, nw⟩

/-- Modelled from the spec: the `Singleton` metaclass of
`pipeless_ai.lib.singleton`, which is not under `src/` (only its import and
uses are).  Per the spec, `Config` is a "process-wide singleton, constructed
exactly once at process start, read-only for the remainder of the process
lifetime; any later attempt to reconstruct it must yield the same resolved
values (idempotent singleton)": the metaclass caches the instance built by
the first call and every later call, with any argument, returns the cached
instance without re-running `__init__`.  `instances` is the metaclass cache
for `Config`; the result pairs the call outcome with the updated cache. -/
def Config_call (instances : Option ConfigValues)
    (env : String → Option String) (config : Option ConfigDict) :
    Except PyErr ConfigValues × Option ConfigValues :=
  match instances with
  | some c => (.ok c, some c)
  | none =>
    match Config_init env config with
    | .ok c => (.ok c, some c)
    | .error e => (.error e, none)

/-! ### Messaging model for `input.py`

Each call of `.send(...)` or `.ensure_send(...)` on one of the two sockets
(`InputOutputSocket('w')`, the point-to-point channel to the output
component, and `InputPushSocket`, the round-robin distribution channel to
the workers) is recorded as one `SendEvent`. -/

/-- A message variant of `pipeless_ai.lib.messages` as sent by `input.py`:
`EndOfStreamMsg`, `StreamCapsMsg`, `StreamTagsMsg`, `RgbImageMsg`. -/
inductive Msg
  | eos
  | caps (description : String)
  | tags (description : String)
  | frame (width height : Nat) (dts pts duration : Int)
deriving DecidableEq, Repr

/-- The two channels `input.py` sends on. -/
inductive Chan
  | output
  | workers
deriving DecidableEq, Repr

/-- Which socket method performed the send: best-effort `send` or reliable
`ensure_send`. -/
inductive SendKind
  | send
  | ensure_send
deriving DecidableEq, Repr

/-- One socket send: target channel, method used, message sent. -/
structure SendEvent where
  chan : Chan
  kind : SendKind
  msg : Msg
deriving DecidableEq, Repr

/-- `Gst.FlowReturn` values used by `on_new_sample`. -/
inductive FlowReturn
  | ok
  | error
deriving DecidableEq, Repr

/-- `Gst.PadProbeReturn` values used by `on_pad_upstream_event`. -/
inductive PadProbeReturn
  | ok
  | remove
deriving DecidableEq, Repr

/-- A mapped `Gst.Buffer`: `buffer.map(READ)` either fails or yields the
mapped byte data; `dts`/`pts`/`duration` are the engine timestamps. -/
structure GstBuffer where
  mapResult : Option (List Nat)
  dts : Int
  pts : Int
  duration : Int
deriving DecidableEq, Repr

/-- A `Gst.Sample` pulled from the appsink: its (optional) buffer and the
`width`/`height` read from its caps. -/
structure Sample where
  buffer : Option GstBuffer
  width : Nat
  height : Nat
deriving DecidableEq, Repr

/-- `on_new_sample` (`input.py` lines 17-57).  The argument is the result of
`sink.pull_sample()` (`none` when no sample is available).  Returns the
`Gst.FlowReturn` handed back to the engine and the trace of sends performed:
a `None` sample, a `None` buffer, or a failed `buffer.map` each return
`Gst.FlowReturn.ERROR` (no exit, no send); otherwise one `RgbImageMsg` is
sent to the worker distribution channel with best-effort `send`. -/
def on_new_sample (sample : Option Sample) : FlowReturn × List SendEvent :=
  match sample with
  | none => (.error, [])
  | some s =>
    match s.buffer with
    | none => (.error, [])
    | some b =>
      match b.mapResult with
      | none => (.error, [])
      | some _ =>
        (.ok, [⟨.workers, .send, .frame s.width s.height b.dts b.pts b.duration⟩])

/-- A typed `Gst.Message` as dispatched on by `on_bus_message`. -/
inductive BusMsg
  | eos
  | error (src msg dbg : String)
  | warning (src msg dbg : String)
  | state_changed (oldState newState pendingState : String)
  | tag (tags : String)
  | other
deriving DecidableEq, Repr

/-- `on_bus_message` (`input.py` lines 59-100).  `n_workers` is
`Config(None).get_n_workers()` read from the singleton.  Returns the trace
of sends and whether the main loop keeps running (`loop.quit()` is called
only on `ERROR`).  On `EOS`: one serialized `EndOfStreamMsg` is sent to the
output channel with `send`, then the same serialized message is sent to the
worker distribution channel with `ensure_send` once per worker.  On `TAG`:
one `StreamTagsMsg` is sent to the output channel with `send`.  All other
message types perform no send. -/
def on_bus_message (n_workers : Nat) (m : BusMsg) : List SendEvent × Bool :=
  match m with
  | .eos =>
    (⟨.output, .send, .eos⟩ ::
      List.replicate n_workers ⟨.workers, .ensure_send, .eos⟩, true)
  | .error _ _ _ => ([], false)
  | .tag t => ([⟨.output, .send, .tags t⟩], true)
  | _ => ([], true)

/-- `on_pad_upstream_event` (`input.py` lines 102-122).  The argument is the
result of `pad.get_current_caps()` at this invocation (`none` while caps
negotiation is incomplete).  While caps are `None` it does nothing and
returns `Gst.PadProbeReturn.OK` (probe stays in place); once caps are
available it sends one `StreamCapsMsg` to the output channel and returns
`Gst.PadProbeReturn.REMOVE` (probe is detached). -/
def on_pad_upstream_event (caps : Option String) :
    PadProbeReturn × List SendEvent :=
  match caps with
  | some c => (.remove, [⟨.output, .send, .caps c⟩])
  | none => (.ok, [])

/-- The probe mechanism of the media engine around `on_pad_upstream_event`:
`handle_caps_change` attaches the probe (`attached = true`); each event on
the pad invokes the probe only while it is attached, and a `REMOVE` return
detaches it.  `obs` is the sequence of `pad.get_current_caps()` results seen
by successive upstream events; the result is the trace of sends. -/
def runProbe (attached : Bool) : List (Option String) → List SendEvent
  | [] => []
  | c :: rest =>
    if attached then
      let r := on_pad_upstream_event c
      r.2 ++ runProbe (r.1 == PadProbeReturn.ok) rest
    else runProbe attached rest

/-- `pad_added_callback` (`input.py` lines 182-187) iterated over the
sequence of dynamically created pads, identified by `Nat` ids.  `linked` is
`videoconvert_sink_pad.is_linked()`: when it is false the new pad is linked
to the videoconvert sink pad (which makes `is_linked()` true afterwards);
otherwise the pad is skipped with a warning.  The result is the list of pads
on which `pad.link(videoconvert_sink_pad)` was attempted, in order. -/
def runPads (linked : Bool) : List Nat → List Nat
  | [] => []
  | p :: rest =>
    if linked then runPads linked rest
    else p :: runPads true rest

/-- An event of the input component, in global observation order: either a
bus message dispatched by the main loop or an invocation of the frame
capture callback with the pulled sample. -/
inductive InputEvent
  | busEvt (m : BusMsg)
  | sampleEvt (s : Option Sample)
deriving DecidableEq, Repr

/-- The sends performed when handling one `InputEvent`. -/
def handleEvent (n_workers : Nat) : InputEvent → List SendEvent
  | .busEvt m => (on_bus_message n_workers m).1
  | .sampleEvt s => (on_new_sample s).2

/-- The full send trace of the input component over a sequence of events. -/
def processEvents (n_workers : Nat) : List InputEvent → List SendEvent
  | [] => []
  | e :: rest => handleEvent n_workers e ++ processEvents n_workers rest

/-- Is this send an `EndOfStreamMsg` send? -/
def isEosSend (e : SendEvent) : Bool := e.msg == Msg.eos

/-- The spec's "EndOfStream is the last message observed by every
recipient": once an `EndOfStreamMsg` send occurs in the trace, every later
send (on either channel) is also an `EndOfStreamMsg` send. -/
def eosLast (tr : List SendEvent) : Bool :=
  (tr.dropWhile (fun e => !isEosSend e)).all isEosSend

end Pipeless

deriving instance DecidableEq for Except

namespace Pipeless

/-! ### Helper lemmas -/

/-- `str.split(sep)` on a string without the separator yields the singleton
list of the whole string. -/
theorem pySplit_of_not_mem {sep : Char} {l : List Char} (h : sep ∉ l) :
    pySplit sep l = [l] := by
  induction l with
  | nil => rfl
  | cons c rest ih =>
    have hc : ¬c = sep := fun hcs => h (hcs ▸ List.mem_cons_self c rest)
    have hr : sep ∉ rest := fun hm => h (List.mem_cons_of_mem c hm)
    simp only [pySplit, if_neg hc, ih hr]

/-- Splitting a string whose first separator occurrence follows the
separator-free prefix `pre` puts `pre` first and splits the rest. -/
theorem pySplit_append {sep : Char} {pre : List Char} (post : List Char)
    (h : sep ∉ pre) :
    pySplit sep (pre ++ sep :: post) = pre :: pySplit sep post := by
  induction pre with
  | nil => simp [pySplit]
  | cons c pre ih =>
    have hc : ¬c = sep := fun hcs => h (hcs ▸ List.mem_cons_self c pre)
    have hp : sep ∉ pre := fun hm => h (List.mem_cons_of_mem c hm)
    simp only [List.cons_append, pySplit, if_neg hc, List.append_eq]
    rw [ih hp]

/-- `pySplit` never returns the empty list. -/
theorem pySplit_ne_nil (sep : Char) (l : List Char) : pySplit sep l ≠ [] := by
  induction l with
  | nil => simp [pySplit]
  | cons c rest ih =>
    by_cases hc : c = sep
    · simp [pySplit, hc]
    · simp only [pySplit, if_neg hc]
      cases hps : pySplit sep rest with
      | nil => exact absurd hps ih
      | cons h t => simp

/-- The first piece of a split is the longest separator-free prefix. -/
theorem pySplit_head (sep : Char) (l : List Char) :
    ∃ t, pySplit sep l = l.takeWhile (fun c => !(c == sep)) :: t := by
  induction l with
  | nil => exact ⟨[], rfl⟩
  | cons c rest ih =>
    by_cases hc : c = sep
    · refine ⟨pySplit sep rest, ?_⟩
      simp [pySplit, hc, List.takeWhile]
    · obtain ⟨t, ht⟩ := ih
      refine ⟨t, ?_⟩
      have hb : (c == sep) = false := by simp [hc]
      simp only [pySplit, if_neg hc, ht, List.takeWhile, hb, Bool.not_false]

end Pipeless

namespace Pipeless

/-! ### Claim theorems -/

/-- C6: if the environment variable for a field is set, `prioritized_config`
resolves to the environment value passed through the field's `convert_to`
function, and the result is the same whatever the configuration-document
lookup would have produced (present, absent, or even a raising lookup): the
document is never consulted.  The embedding is a pure function of the
environment read and the document lookup, so resolution has no further
side effects. -/
theorem env_overrides_config (s : String) (conv : String → Except PyErr Value)
    (required : Bool) (l1 l2 : Except PyErr Value) :
    prioritized_config (some s) l1 conv required = (conv s).map some ∧
    prioritized_config (some s) l1 conv required =
      prioritized_config (some s) l2 conv required :=
  ⟨rfl, rfl⟩

/-- Witness for C6: with `PIPELESS_N_WORKERS=2` set, the resolver yields
`int("2") = 2` even though the document holds `n_workers = 7`. -/
theorem env_overrides_config_witness :
    prioritized_config (some "2") (.ok (.vInt 7)) convInt true =
      Except.ok (some (.vInt 2)) := by
  have h := env_overrides_config "2" convInt true (.ok (.vInt 7)) (.error .keyError)
  rw [h.1]
  decide

/-- C10: when the environment variable is unset and the field is present in
the configuration document, `prioritized_config` returns the document value
as-is, for every `convert_to` function: conversion is applied only to
environment values, so a document value keeps the document's type. -/
theorem config_value_not_converted (v : Value)
    (conv : String → Except PyErr Value) (required : Bool) :
    prioritized_config none (.ok v) conv required = .ok (some v) :=
  rfl

/-- Witness for C10: a document value `n_workers = 4` (an int) resolves to
the int `4` unchanged, and a document bool stays a bool, even under the
field's converter. -/
theorem config_value_not_converted_witness :
    prioritized_config none (.ok (.vInt 4)) convInt true =
        Except.ok (some (.vInt 4)) ∧
      prioritized_config none (.ok (.vBool true)) convBool true =
        Except.ok (some (.vBool true)) :=
  ⟨config_value_not_converted (.vInt 4) convInt true,
   config_value_not_converted (.vBool true) convBool true⟩

/-- C4 counterexample: the claim says the URI is split on the first colon
only, with the location being the entire remainder after it, also for URIs
with further colons.  On `"rtsp://host:554/stream"` the code splits on every
colon and takes element `[1]`, yielding location `"//host"` — not the
remainder `"//host:554/stream"` the claim predicts. -/
theorem uri_parse_counterexample :
    Video_parseUri (some (.vStr "rtsp://host:554/stream")) =
      Except.ok ("rtsp", "//host") ∧
    Video_parseUri (some (.vStr "rtsp://host:554/stream")) ≠
      Except.ok ("rtsp", "//host:554/stream") := by
  decide

/-- C4 amended: `"screen"` yields protocol = location = `"screen"`; a
non-`"screen"` URI without a colon exits fatally; and a URI of the shape
`pre ++ ":" ++ post` with a colon-free `pre` yields protocol `pre` and as
location the part of `post` before its next colon (the entire remainder
only when no further colon follows). -/
theorem uri_parse_amended :
    Video_parseUri (some (.vStr "screen")) = .ok ("screen", "screen") ∧
    (∀ u : String, u ≠ "screen" → (':' ∉ u.data) →
      Video_parseUri (some (.vStr u)) = .error .exit) ∧
    (∀ pre post : List Char, ':' ∉ pre →
      Video_parseUri (some (.vStr (String.mk (pre ++ ':' :: post)))) =
        .ok (String.mk pre,
          String.mk (post.takeWhile (fun c => !(c == ':'))))) := by
  refine ⟨rfl, ?_, ?_⟩
  · intro u hu hcolon
    have hne : ¬(some (Value.vStr u) = some (Value.vStr "screen")) := by
      simp [hu]
    unfold Video_parseUri
    rw [if_neg hne]
    show (match pySplit ':' u.data with
      | p :: l :: _ => Except.ok (String.mk p, String.mk l)
      | _ => Except.error PyErr.exit) = Except.error PyErr.exit
    rw [pySplit_of_not_mem hcolon]
  · intro pre post hpre
    have hne : ¬(some (Value.vStr (String.mk (pre ++ ':' :: post))) =
        some (Value.vStr "screen")) := by
      simp only [Option.some.injEq, Value.vStr.injEq]
      intro h
      have hdata : pre ++ ':' :: post = "screen".data := congrArg String.data h
      have hmem : (':' : Char) ∈ "screen".data :=
        hdata ▸ List.mem_append_right pre (List.mem_cons_self ':' post)
      exact absurd hmem (by decide)
    unfold Video_parseUri
    rw [if_neg hne]
    show (match pySplit ':' (pre ++ ':' :: post) with
      | p :: l :: _ => Except.ok (String.mk p, String.mk l)
      | _ => Except.error PyErr.exit) = _
    rw [pySplit_append post hpre]
    obtain ⟨t, ht⟩ := pySplit_head ':' post
    rw [ht]

/-- Witness for C4 amended: `"a:b:c"` yields protocol `"a"` and location
`"b"` (truncated at the second colon), and `"noproto"` is fatal. -/
theorem uri_parse_amended_witness :
    Video_parseUri (some (.vStr "a:b:c")) = Except.ok ("a", "b") ∧
    Video_parseUri (some (.vStr "noproto")) = Except.error PyErr.exit :=
  ⟨uri_parse_amended.2.2 ['a'] ['b', ':', 'c'] (by decide),
   uri_parse_amended.2.1 "noproto" (by decide) (by decide)⟩

/-- C9: the `Config` singleton is idempotent.  Once a first construction has
succeeded and produced resolved values `c`, any later construction attempt —
with any environment and any configuration argument, including `Config(None)`
as in `on_bus_message` — returns the same instance `c` with the same resolved
values (log level, input, output, n_workers are the fields of `c`), and
leaves the cache unchanged.  The class exposes only getters, so nothing in
the embedding mutates the resolved values. -/
theorem config_singleton_idempotent
    (env env2 : String → Option String) (cfg cfg2 : Option ConfigDict)
    (c : ConfigValues) (h : (Config_call none env cfg).1 = .ok c) :
    Config_call (Config_call none env cfg).2 env2 cfg2 = (.ok c, some c) := by
  unfold Config_call at h ⊢
  cases hinit : Config_init env cfg with
  | ok c0 =>
    rw [hinit] at h
    cases h
    rfl
  | error e =>
    rw [hinit] at h
    cases h

/-- Environment for the C9 witness: every required field is provided via
its `PIPELESS_*` env var. -/
def witEnv : String → Option String := fun k =>
  if k = "PIPELESS_LOG_LEVEL" then some "INFO"
  else if k = "PIPELESS_N_WORKERS" then some "2"
  else if k = "PIPELESS_INPUT_VIDEO_ENABLE" then some "true"
  else if k = "PIPELESS_INPUT_VIDEO_URI" then some "file:///a/b"
  else if k = "PIPELESS_INPUT_ADDRESS_HOST" then some "localhost"
  else if k = "PIPELESS_INPUT_ADDRESS_PORT" then some "1234"
  else if k = "PIPELESS_OUTPUT_VIDEO_ENABLE" then some "true"
  else if k = "PIPELESS_OUTPUT_VIDEO_URI" then some "screen"
  else if k = "PIPELESS_OUTPUT_ADDRESS_HOST" then some "localhost"
  else if k = "PIPELESS_OUTPUT_ADDRESS_PORT" then some "1235"
  else none

/-- Config document for the C9 witness: only the section dictionaries are
present (their leaf values come from `witEnv`). -/
def witDoc : ConfigDict :=
  ⟨none, none, some ⟨some ⟨none, none⟩, some ⟨none, none⟩⟩,
    some ⟨some ⟨none, none⟩, some ⟨none, none⟩⟩⟩

/-- The resolved values the first `Config` construction produces from
`witEnv` and `witDoc`. -/
def witValues : ConfigValues :=
  ⟨some (.vStr "INFO"),
   ⟨⟨some (.vBool true), some (.vStr "file:///a/b"), "file", "///a/b"⟩,
    ⟨some (.vStr "localhost"), some (.vStr "1234")⟩⟩,
   ⟨⟨some (.vBool true), some (.vStr "screen"), "screen", "screen"⟩,
    ⟨some (.vStr "localhost"), some (.vStr "1235")⟩⟩,
   some (.vInt 2)⟩

/-- Witness for C9: after a first successful construction from `witEnv` and
`witDoc`, a later `Config(None)` (no env vars, no document) still yields
exactly `witValues`. -/
theorem config_singleton_idempotent_witness :
    Config_call (Config_call none witEnv (some witDoc)).2 (fun _ => none)
        none = (.ok witValues, some witValues) :=
  config_singleton_idempotent witEnv (fun _ => none) (some witDoc) none
    witValues (by decide)

/-- Count of a predicate over a head element followed by `n` copies of
another element. -/
theorem countP_cons_replicate {α : Type} (p : α → Bool) (e0 e1 : α) (n : Nat) :
    (e0 :: List.replicate n e1).countP p =
      (if p e0 then 1 else 0) + if p e1 then n else 0 := by
  rw [List.countP_cons, List.countP_replicate]
  exact Nat.add_comm _ _

/-- Indexing into a head element followed by `n` copies of another
element. -/
theorem get_cons_replicate {α : Type} (e0 e1 : α) (n : Nat)
    (k : Fin (e0 :: List.replicate n e1).length) :
    (e0 :: List.replicate n e1).get k = if (k : Nat) = 0 then e0 else e1 := by
  obtain ⟨kv, hk⟩ := k
  cases kv with
  | zero => rfl
  | succ m =>
    have h1 : (e0 :: List.replicate n e1).get ⟨m + 1, hk⟩ =
        (List.replicate n e1).get
          ⟨m, Nat.lt_of_succ_lt_succ (by simpa using hk)⟩ := rfl
    rw [h1, if_neg (Nat.succ_ne_zero m)]
    exact List.eq_of_mem_replicate (List.get_mem _ _ _)

/-- In a head element followed by replicated elements, any index whose
element satisfies a property failing on the replicated element precedes any
index whose element satisfies a property failing on the head. -/
theorem cons_replicate_order {α : Type} (e0 e1 : α) (n : Nat)
    (P Q : α → Prop) (hP : ¬P e1) (hQ : ¬Q e0) :
    ∀ i j : Fin (e0 :: List.replicate n e1).length,
      P ((e0 :: List.replicate n e1).get i) →
      Q ((e0 :: List.replicate n e1).get j) → (i : Nat) < (j : Nat) := by
  intro i j hi hj
  rw [get_cons_replicate] at hi hj
  by_cases hi0 : (i : Nat) = 0
  · by_cases hj0 : (j : Nat) = 0
    · rw [if_pos hj0] at hj
      exact absurd hj hQ
    · omega
  · rw [if_neg hi0] at hi
    exact absurd hi hP

/-- C1: handling an `EOS` bus event sends exactly one `EndOfStreamMsg` to
the output component's channel and exactly `n_workers` `EndOfStreamMsg`s to
the worker distribution channel, and every output-channel send in the trace
precedes every worker-channel send. -/
theorem eos_event_sends (n : Nat) :
    (on_bus_message n BusMsg.eos).1.countP
        (fun e => e.chan == Chan.output && e.msg == Msg.eos) = 1 ∧
    (on_bus_message n BusMsg.eos).1.countP
        (fun e => e.chan == Chan.workers && e.msg == Msg.eos) = n ∧
    ∀ i j : Fin (on_bus_message n BusMsg.eos).1.length,
      ((on_bus_message n BusMsg.eos).1.get i).chan = Chan.output →
      ((on_bus_message n BusMsg.eos).1.get j).chan = Chan.workers →
      (i : Nat) < (j : Nat) := by
  refine ⟨?_, ?_, ?_⟩
  · exact (countP_cons_replicate _ _ _ n).trans rfl
  · exact (countP_cons_replicate _ _ _ n).trans (by simp)
  · exact cons_replicate_order
      (⟨Chan.output, SendKind.send, Msg.eos⟩ : SendEvent)
      (⟨Chan.workers, SendKind.ensure_send, Msg.eos⟩ : SendEvent) n
      (fun e => e.chan = Chan.output) (fun e => e.chan = Chan.workers)
      (by decide) (by decide)

/-- Witness for C1 at `n_workers = 3`. -/
theorem eos_event_sends_witness :
    (on_bus_message 3 BusMsg.eos).1.countP
        (fun e => e.chan == Chan.output && e.msg == Msg.eos) = 1 ∧
    (on_bus_message 3 BusMsg.eos).1.countP
        (fun e => e.chan == Chan.workers && e.msg == Msg.eos) = 3 ∧
    ∀ i j : Fin (on_bus_message 3 BusMsg.eos).1.length,
      ((on_bus_message 3 BusMsg.eos).1.get i).chan = Chan.output →
      ((on_bus_message 3 BusMsg.eos).1.get j).chan = Chan.workers →
      (i : Nat) < (j : Nat) :=
  eos_event_sends 3

/-- C3 counterexample: the claim says every one of the `EndOfStream` sends
performed by the `EOS` handler uses the reliable `ensure_send`, never the
best-effort `send`; but the single send to the output component's channel
(`m_socket.send(m_msg)`, `input.py` line 73) uses `send`. -/
theorem eos_send_reliability_counterexample :
    ¬∀ e ∈ (on_bus_message 1 BusMsg.eos).1,
      e.kind = SendKind.ensure_send := by
  decide

/-- C3 amended: of the sends performed by the `EOS` handler, the
`n_workers` sends to the worker distribution channel all use the reliable
`ensure_send`, while the single send to the output component's channel uses
the plain (best-effort) `send` method. -/
theorem eos_send_kinds (n : Nat) :
    (∀ e ∈ (on_bus_message n BusMsg.eos).1,
      e.chan = Chan.workers → e.kind = SendKind.ensure_send) ∧
    (∀ e ∈ (on_bus_message n BusMsg.eos).1,
      e.chan = Chan.output → e.kind = SendKind.send) := by
  constructor
  · intro e he hc
    rcases List.mem_cons.mp he with h | h
    · subst h
      exact absurd hc (by decide)
    · rw [List.eq_of_mem_replicate h]
  · intro e he hc
    rcases List.mem_cons.mp he with h | h
    · subst h
      rfl
    · rw [List.eq_of_mem_replicate h] at hc
      exact absurd hc (by decide)

/-- Witness for C3 amended at `n_workers = 2`: the second trace element (a
worker send) used `ensure_send`, the first (the output send) used `send`. -/
theorem eos_send_kinds_witness :
    ((on_bus_message 2 BusMsg.eos).1.get ⟨1, by decide⟩).kind =
        SendKind.ensure_send ∧
      ((on_bus_message 2 BusMsg.eos).1.get ⟨0, by decide⟩).kind =
        SendKind.send :=
  ⟨(eos_send_kinds 2).1 _ (by decide) (by decide),
   (eos_send_kinds 2).2 _ (by decide) (by decide)⟩

/-- A detached probe never fires again: no sends, whatever caps follow. -/
theorem runProbe_detached (obs : List (Option String)) :
    runProbe false obs = [] := by
  induction obs with
  | nil => rfl
  | cons c rest ih => simpa [runProbe] using ih

/-- C5: over any sequence of `pad.get_current_caps()` observations, the
probe emits at most one send; every emitted send is a `StreamCapsMsg` to the
output channel whose description was observed as available; an invocation
with caps still `None` performs no send and returns `OK` (probe stays in
place); and the invocation that sees caps available emits the message and
returns `REMOVE` (probe detaches). -/
theorem caps_probe_one_shot (obs : List (Option String)) :
    (runProbe true obs).length ≤ 1 ∧
    (∀ e ∈ runProbe true obs,
      ∃ c, e = ⟨Chan.output, SendKind.send, Msg.caps c⟩ ∧ some c ∈ obs) ∧
    on_pad_upstream_event none = (PadProbeReturn.ok, []) ∧
    ∀ c, on_pad_upstream_event (some c) =
      (PadProbeReturn.remove, [⟨Chan.output, SendKind.send, Msg.caps c⟩]) := by
  induction obs with
  | nil => exact ⟨by simp [runProbe], by simp [runProbe], rfl, fun c => rfl⟩
  | cons c rest ih =>
    cases c with
    | none =>
      obtain ⟨h1, h2, -, -⟩ := ih
      refine ⟨?_, ?_, rfl, fun c => rfl⟩
      · exact le_trans (le_of_eq (congrArg List.length
          (show runProbe true (none :: rest) = runProbe true rest from rfl))) h1
      · intro e he
        obtain ⟨d, hd, hm⟩ := h2 e he
        exact ⟨d, hd, List.mem_cons_of_mem _ hm⟩
    | some s =>
      have hrun : runProbe true (some s :: rest) =
          [⟨Chan.output, SendKind.send, Msg.caps s⟩] := by
        show (⟨Chan.output, SendKind.send, Msg.caps s⟩ : SendEvent) ::
          runProbe false rest = _
        rw [runProbe_detached]
      refine ⟨?_, ?_, rfl, fun c => rfl⟩
      · rw [hrun]
        exact Nat.le_refl 1
      · intro e he
        rw [hrun] at he
        rw [List.mem_singleton.mp he]
        exact ⟨s, rfl, List.mem_cons_self _ _⟩

/-- Witness for C5: two not-yet-negotiated invocations then two with caps
available — the trace still holds at most one send. -/
theorem caps_probe_one_shot_witness :
    (runProbe true [none, none, some "video/x-raw", some "other"]).length ≤ 1 ∧
    (∀ e ∈ runProbe true [none, none, some "video/x-raw", some "other"],
      ∃ c, e = ⟨Chan.output, SendKind.send, Msg.caps c⟩ ∧
        some c ∈ [none, none, some "video/x-raw", some "other"]) ∧
    on_pad_upstream_event none = (PadProbeReturn.ok, []) ∧
    ∀ c, on_pad_upstream_event (some c) =
      (PadProbeReturn.remove, [⟨Chan.output, SendKind.send, Msg.caps c⟩]) :=
  caps_probe_one_shot [none, none, some "video/x-raw", some "other"]

/-- C7: over any sequence of dynamically created pads, link attempts are
made exactly on the first pad (none when there is no pad): at most one link
attempt reaches the videoconvert sink pad, later pads are skipped, and with
the sink pad already linked no attempt at all is made. -/
theorem single_link_attempt (pads : List Nat) :
    runPads false pads = pads.take 1 ∧
    (runPads false pads).length ≤ 1 ∧
    runPads true pads = [] := by
  have htrue : ∀ l : List Nat, runPads true l = [] := by
    intro l
    induction l with
    | nil => rfl
    | cons p rest ih => simpa [runPads] using ih
  refine ⟨?_, ?_, htrue pads⟩
  · cases pads with
    | nil => rfl
    | cons p rest => simp [runPads, htrue rest, List.take]
  · cases pads with
    | nil => simp [runPads]
    | cons p rest => simp [runPads, htrue rest]

/-- Witness for C7: of three pads (video, audio, subtitles) only the first
is linked. -/
theorem single_link_attempt_witness :
    runPads false [4, 7, 9] = [4] := by
  have h := (single_link_attempt [4, 7, 9]).1
  simpa using h

/-- C8: whenever the pulled sample is `None`, its buffer is `None`, or
mapping the buffer for read fails, `on_new_sample` returns
`Gst.FlowReturn.ERROR` to the engine and performs no send to the worker
distribution channel.  The embedding of the callback is total into
`FlowReturn × trace` — these paths have no `sys.exit` and raise nothing, so
the process is not terminated. -/
theorem frame_capture_error_paths (s : Option Sample)
    (h : s = none ∨ (∃ sm, s = some sm ∧ sm.buffer = none) ∨
      ∃ sm b, s = some sm ∧ sm.buffer = some b ∧ b.mapResult = none) :
    on_new_sample s = (FlowReturn.error, []) := by
  rcases h with h | ⟨sm, rfl, hb⟩ | ⟨sm, b, rfl, hb, hm⟩
  · subst h
    rfl
  · simp [on_new_sample, hb]
  · simp [on_new_sample, hb, hm]

/-- Witness for C8: a sample whose buffer fails to map yields `ERROR` and
an empty send trace. -/
theorem frame_capture_error_paths_witness :
    on_new_sample (some ⟨some ⟨none, 0, 0, 0⟩, 4, 3⟩) =
      (FlowReturn.error, []) :=
  frame_capture_error_paths _
    (Or.inr (Or.inr ⟨⟨some ⟨none, 0, 0, 0⟩, 4, 3⟩, ⟨none, 0, 0, 0⟩,
      rfl, rfl, rfl⟩))

/-- The trace of a concatenation of event sequences is the concatenation of
the traces. -/
theorem processEvents_append (n : Nat) (l1 l2 : List InputEvent) :
    processEvents n (l1 ++ l2) =
      processEvents n l1 ++ processEvents n l2 := by
  induction l1 with
  | nil => rfl
  | cons e rest ih => simp [processEvents, ih, List.append_assoc]

/-- Handling any event other than the `EOS` bus event never sends an
`EndOfStreamMsg`. -/
theorem handleEvent_no_eos (n : Nat) (e : InputEvent)
    (h : e ≠ InputEvent.busEvt BusMsg.eos) :
    ∀ s ∈ handleEvent n e, isEosSend s = false := by
  intro s hs
  cases e with
  | busEvt m =>
    cases m with
    | eos => exact absurd rfl h
    | tag t =>
      rw [List.mem_singleton.mp hs]
      rfl
    | error a b c => exact absurd hs (by simp [handleEvent, on_bus_message])
    | warning a b c => exact absurd hs (by simp [handleEvent, on_bus_message])
    | state_changed a b c =>
      exact absurd hs (by simp [handleEvent, on_bus_message])
    | other => exact absurd hs (by simp [handleEvent, on_bus_message])
  | sampleEvt sp =>
    cases sp with
    | none => exact absurd hs (by simp [handleEvent, on_new_sample])
    | some sm =>
      cases hb : sm.buffer with
      | none =>
        exact absurd hs (by simp [handleEvent, on_new_sample, hb])
      | some b =>
        cases hm : b.mapResult with
        | none =>
          exact absurd hs (by simp [handleEvent, on_new_sample, hb, hm])
        | some d =>
          have : s = ⟨Chan.workers, SendKind.send,
              Msg.frame sm.width sm.height b.dts b.pts b.duration⟩ := by
            simpa [handleEvent, on_new_sample, hb, hm] using hs
          rw [this]
          rfl

/-- A stream prefix with no `EOS` bus event produces no `EndOfStreamMsg`
send. -/
theorem processEvents_no_eos (n : Nat) (l : List InputEvent)
    (h : InputEvent.busEvt BusMsg.eos ∉ l) :
    ∀ s ∈ processEvents n l, isEosSend s = false := by
  induction l with
  | nil =>
    intro s hs
    exact absurd hs (by simp [processEvents])
  | cons e rest ih =>
    intro s hs
    rcases List.mem_append.mp hs with h1 | h2
    · exact handleEvent_no_eos n e
        (fun he => h (he ▸ List.mem_cons_self _ _)) s h1
    · exact ih (fun hm => h (List.mem_cons_of_mem _ hm)) s h2

/-- `dropWhile` skips past a prefix on which the predicate holds. -/
theorem dropWhile_append_all {α : Type} (p : α → Bool) (l1 l2 : List α)
    (h : ∀ a ∈ l1, p a = true) :
    (l1 ++ l2).dropWhile p = l2.dropWhile p := by
  induction l1 with
  | nil => rfl
  | cons a rest ih =>
    have ha := h a (List.mem_cons_self _ _)
    simp only [List.cons_append, List.dropWhile, ha]
    exact ih fun x hx => h x (List.mem_cons_of_mem _ hx)

/-- C2 counterexample: the handler keeps the loop running after `EOS` and
nothing guards against later bus events, so on the delivered event sequence
`[EOS, Tag "t"]` (with one worker) the input component sends a
`StreamTagsMsg` to the output channel after the `EndOfStreamMsg` sends: the
`EndOfStream` messages are not the last messages of the trace, contradicting
the claim as a property of the code over arbitrary delivered sequences. -/
theorem eos_last_counterexample :
    processEvents 1 [.busEvt .eos, .busEvt (.tag "t")] =
      [⟨.output, .send, .eos⟩, ⟨.workers, .ensure_send, .eos⟩,
        ⟨.output, .send, .tags "t"⟩] ∧
    eosLast (processEvents 1 [.busEvt .eos, .busEvt (.tag "t")]) = false := by
  decide

/-- C2 amended: for every stream whose delivered event sequence ends with
its only `EOS` bus event — no later frame callback or bus event, which is
what the media engine guarantees — the `EndOfStreamMsg` sends are the last
messages of the trace, with exactly one reaching the output channel and
exactly `n_workers` reaching the worker distribution channel. -/
theorem eos_last_amended (n : Nat) (pre : List InputEvent)
    (h : InputEvent.busEvt BusMsg.eos ∉ pre) :
    eosLast (processEvents n (pre ++ [InputEvent.busEvt BusMsg.eos])) =
        true ∧
    (processEvents n (pre ++ [InputEvent.busEvt BusMsg.eos])).countP
        (fun e => e.chan == Chan.output && e.msg == Msg.eos) = 1 ∧
    (processEvents n (pre ++ [InputEvent.busEvt BusMsg.eos])).countP
        (fun e => e.chan == Chan.workers && e.msg == Msg.eos) = n := by
  have hsplit : processEvents n (pre ++ [InputEvent.busEvt BusMsg.eos]) =
      processEvents n pre ++
        (⟨Chan.output, SendKind.send, Msg.eos⟩ ::
          List.replicate n ⟨Chan.workers, SendKind.ensure_send, Msg.eos⟩) := by
    rw [processEvents_append]
    simp [processEvents, handleEvent, on_bus_message]
  have hnes := processEvents_no_eos n pre h
  have hmsg : ∀ s ∈ processEvents n pre, s.msg ≠ Msg.eos := by
    intro s hs
    have := hnes s hs
    simpa [isEosSend] using this
  refine ⟨?_, ?_, ?_⟩
  · rw [hsplit]
    unfold eosLast
    rw [dropWhile_append_all _ _ _
      (fun a ha => by rw [hnes a ha]; rfl)]
    rw [show ((⟨Chan.output, SendKind.send, Msg.eos⟩ :
        SendEvent) ::
        List.replicate n ⟨Chan.workers, SendKind.ensure_send, Msg.eos⟩
        ).dropWhile (fun e => !isEosSend e) =
        ⟨Chan.output, SendKind.send, Msg.eos⟩ ::
        List.replicate n ⟨Chan.workers, SendKind.ensure_send, Msg.eos⟩
      from by simp [List.dropWhile, isEosSend]]
    rw [List.all_eq_true]
    intro x hx
    rcases List.mem_cons.mp hx with h1 | h2
    · rw [h1]
      rfl
    · rw [List.eq_of_mem_replicate h2]
      rfl
  · rw [hsplit, List.countP_append, countP_cons_replicate]
    have h0 : (processEvents n pre).countP
        (fun e => e.chan == Chan.output && e.msg == Msg.eos) = 0 := by
      rw [List.countP_eq_zero]
      intro a ha
      simp [hmsg a ha]
    rw [h0]
    simp
  · rw [hsplit, List.countP_append, countP_cons_replicate]
    have h0 : (processEvents n pre).countP
        (fun e => e.chan == Chan.workers && e.msg == Msg.eos) = 0 := by
      rw [List.countP_eq_zero]
      intro a ha
      simp [hmsg a ha]
    rw [h0]
    simp

/-- Witness for C2 amended: a tag event and a captured frame followed by
the final `EOS` event, with two workers. -/
theorem eos_last_amended_witness :
    eosLast (processEvents 2
        ([InputEvent.busEvt (BusMsg.tag "t"),
          InputEvent.sampleEvt (some ⟨some ⟨some [1, 2], 0, 0, 0⟩, 1, 1⟩)] ++
          [InputEvent.busEvt BusMsg.eos])) = true ∧
    (processEvents 2
        ([InputEvent.busEvt (BusMsg.tag "t"),
          InputEvent.sampleEvt (some ⟨some ⟨some [1, 2], 0, 0, 0⟩, 1, 1⟩)] ++
          [InputEvent.busEvt BusMsg.eos])).countP
        (fun e => e.chan == Chan.output && e.msg == Msg.eos) = 1 ∧
    (processEvents 2
        ([InputEvent.busEvt (BusMsg.tag "t"),
          InputEvent.sampleEvt (some ⟨some ⟨some [1, 2], 0, 0, 0⟩, 1, 1⟩)] ++
          [InputEvent.busEvt BusMsg.eos])).countP
        (fun e => e.chan == Chan.workers && e.msg == Msg.eos) = 2 :=
  eos_last_amended 2
    [InputEvent.busEvt (BusMsg.tag "t"),
      InputEvent.sampleEvt (some ⟨some ⟨some [1, 2], 0, 0, 0⟩, 1, 1⟩)]
    (by decide)

end Pipeless
